import Mathlib

/-!
Verification of the register/memory allocation and code-emission core of the
js-to-schematic compiler, shallowly embedded from the TypeScript sources:

* `src/src/types/memory.ts` — memory layout constants and `isMemoryAddress`,
* `src/src/ISA.js` / `src/src/types/ISA.ts` — register file description,
* `src/src/compile/memory/registers.ts` — the register/scope/symbol manager
  and the bundled memory allocator (`memoryAllocator`),
* `src/src/compile/modules/expression/compileValue.ts` — expression lowering,
* `src/src/compile/modules/expression/assignmentExpression.ts` — string
  literal assignment lowering,
* `src/src/compile/modules/statement/loop/doWhileStatement.ts`,
  `continueStatement.ts`, `binaryExpression.ts`, `Stack.ts`,
  `CompilerContext.ts` — statement lowering and emission context.

Mutable module-level state in the TypeScript is threaded explicitly as a
`RegState` value; functions that `throw` return `Except String`.
-/

deriving instance DecidableEq for Except

namespace JsToSchematic

/-! Section: memory layout constants (`src/src/types/memory.ts`) -/

def MEMORY_SIZE : Nat := 256

def STACK_POINTER : Nat := 232

def SP_START : Nat := 224

def IO_START : Nat := 240

/-- Source `isMemoryAddress(addr)` from `types/memory.ts`:
`addr >= 0 && addr < SP_START`. -/
def isMemoryAddress (addr : Int) : Bool :=
  0 ≤ addr && addr < (SP_START : Int)

/-! Section: register file description (`src/src/ISA.js`, `src/src/types/ISA.ts`) -/

def REGISTERS : List String := (List.range 16).map (fun i => "r" ++ toString i)

def ZERO_REGISTER : String := "r0"

def RETURN_REGISTER : String := "r15"

/-- The `special` field of `ISA.registers[name]`: `r0` is the zero register,
`r15` the return/stack-pointer register, all others are general purpose. -/
def registerSpecial (name : String) : Option String :=
  if name = ZERO_REGISTER then some "zero"
  else if name = RETURN_REGISTER then some "return"
  else none

/-- Source `GENERIC_REGISTERS` from `compile/memory/registers.ts`:
the ISA registers whose `special` field is null, i.e. `r1` … `r14`. -/
def GENERIC_REGISTERS : List String :=
  REGISTERS.filter (fun r => (registerSpecial r).isNone)

/-! Section: symbol-table entries (`src/src/types/memory.ts` variable info) -/

/-- Type `VariableInfo` — one entry of the `variables` map in
`compile/memory/registers.ts`, discriminated on its `type` tag. -/
inductive VariableInfo where
  | register (value : String) (scope : Nat) (size : Nat)
  | memory (value : Nat) (size : Nat) (scope : Nat)
  | array (value : Nat) (size : Nat) (scope : Nat) (base : Nat) (offset : Nat)
  | const (value : Int) (scope : Nat) (size : Nat)
deriving DecidableEq, Repr

def VariableInfo.scope : VariableInfo → Nat
  | .register _ s _ => s
  | .memory _ _ s => s
  | .array _ _ s _ _ => s
  | .const _ s _ => s

/-- The register held by a `type: "register"` entry, if any. -/
def VariableInfo.registerValue : VariableInfo → Option String
  | .register v _ _ => some v
  | _ => none

/-! Section: association-list maps (embedding of the JS `Map`) -/

def mapGet {α : Type} (m : List (String × α)) (k : String) : Option α :=
  (m.find? (fun p => p.1 == k)).map (fun p => p.2)

/-- Source `Map.set`: replace the entry for `k` when present, append otherwise. -/
def mapSet {α : Type} (m : List (String × α)) (k : String) (v : α) :
    List (String × α) :=
  if m.any (fun p => p.1 == k) then
    m.map (fun p => if p.1 == k then (k, v) else p)
  else
    m ++ [(k, v)]

/-! Section: compiler state

The module-level mutable state of `compile/memory/registers.ts` and of the
bundled `memoryAllocator`, threaded explicitly. The JS `scopeStack` array has
its top at the end; we keep the top at the head of the list. -/

structure RegState where
  /-- Field for the `variables` map of `registers.ts` (renamed: `variables` is reserved) -/
  vars : List (String × VariableInfo)
  registers : List (String × Bool)
  constNames : List String
  currentScope : Nat
  scopeStack : List Nat
  nextMemoryAddress : Nat
deriving DecidableEq, Repr

def initRegState : RegState where
  vars := []
  registers := GENERIC_REGISTERS.map (fun r => (r, false))
  constNames := []
  currentScope := 0
  scopeStack := [0]
  nextMemoryAddress := 0

namespace RegState

/-- Source `has(key)`: `key != null && variables.has(key)`. -/
def has (s : RegState) (key : Option String) : Bool :=
  match key with
  | none => false
  | some k => (mapGet s.vars k).isSome

/-- Source `wasEverConst(key)`: `key != null && constNames.has(key)`. -/
def wasEverConst (s : RegState) (key : Option String) : Bool :=
  match key with
  | none => false
  | some k => s.constNames.contains k

/-- Source `next()`: first generic register whose used-bit is unset, marked used;
throws `Out of registers!` when none is free. -/
def next (s : RegState) : Except String (String × RegState) :=
  match GENERIC_REGISTERS.find? (fun r => !((mapGet s.registers r).getD false)) with
  | none => .error "Out of registers!"
  | some r => .ok (r, { s with registers := mapSet s.registers r true })

/-- Source `free(...names)`: clear the used-bit of every given generic register;
non-generic names are ignored. -/
def free (s : RegState) (names : List String) : RegState :=
  { s with
    registers := names.foldl
      (fun m reg => if GENERIC_REGISTERS.contains reg then mapSet m reg false else m)
      s.registers }

/-- Source `get(key)` from `compile/memory/registers.ts`. -/
def get (s : RegState) (key : Option String) : Except String (String × RegState) :=
  if !s.has key then
    if s.wasEverConst key then
      .error ("Const '" ++ key.getD "" ++ "' is not defined in this scope")
    else
      s.next
  else
    match mapGet s.vars (key.getD "") with
    | some (.array ..) =>
        .error ("Variable " ++ key.getD "" ++ " is an array, not a register. Use getArray()")
    | some (.const ..) =>
        .error ("Variable " ++ key.getD "" ++
          " is in memory, not a register. Use getMemory() or getConst()")
    | some (.memory ..) =>
        .error ("Variable " ++ key.getD "" ++
          " is in memory, not a register. Use getMemory() or getConst()")
    | some (.register v _ _) =>
        if REGISTERS.contains v then .ok (v, s)
        else .error ("Invalid register name: " ++ v)
    | none => .error ("Invalid register name: undefined")

/-- Source `set(key, value?)`: if the variable exists return `get(key)`; otherwise
bind it to `value` or to the next free register. -/
def set (s : RegState) (key : String) (value : Option String) :
    Except String (String × RegState) :=
  if s.has (some key) then
    s.get (some key)
  else
    let acquired : Except String (String × RegState) :=
      match value with
      | some v => .ok (v, s)
      | none => s.next
    match acquired with
    | .error e => .error e
    | .ok (reg, s1) =>
        .ok (reg,
          { s1 with
            vars := mapSet s1.vars key (.register reg s1.currentScope 1) })

end RegState

/-! Section: memory allocator (`memoryAllocator` bundled with `registers.ts`) -/

def MAX_ARRAY_OFFSET : Nat := 8

def MAX_MEMORY_ADDRESS : Nat := SP_START - 1

structure Allocation where
  value : Nat
  size : Nat
  scope : Nat
deriving DecidableEq, Repr

/-- Source `allocateMemoryAddress(size, scope)`: return the bump pointer, advance it
by `size`; throws `Out of memory!` when the advanced pointer leaves the
general-purpose region. The throw happens before the pointer is updated. -/
def allocateMemoryAddress (size scope : Nat) (s : RegState) :
    Except String (Allocation × RegState) :=
  let address := s.nextMemoryAddress
  let nextAddr := address + size
  if !isMemoryAddress (nextAddr : Int) then
    .error ("Out of memory! Would exceed available space (max address: " ++
      toString MAX_MEMORY_ADDRESS ++ ")")
  else
    .ok ({ value := address, size := size, scope := scope },
      { s with nextMemoryAddress := nextAddr })

structure ArrayAllocation where
  value : Nat
  size : Nat
  scope : Nat
  base : Nat
  offset : Nat
deriving DecidableEq, Repr

/-- Source `memoryAllocator.Array(length, scope)`: allocate `length` cells and place
the addressing base at `offset = max(0, length - MAX_ARRAY_OFFSET - 1)`. -/
def memAllocArray (length scope : Nat) (s : RegState) :
    Except String (ArrayAllocation × RegState) :=
  match allocateMemoryAddress length scope s with
  | .error e => .error e
  | .ok (allocation, s1) =>
      let offset : Nat := (max 0 ((length : Int) - (MAX_ARRAY_OFFSET : Int) - 1)).toNat
      let base : Nat := allocation.value + offset
      if !isMemoryAddress (base : Int) then
        .error ("Invalid memory address: " ++ toString base ++ ". Address exceeds maximum.")
      else
        .ok ({ value := allocation.value, size := allocation.size,
               scope := allocation.scope, base := base, offset := offset }, s1)

/-- Source `memoryAllocator.Value(scope)` — the scalar allocator. -/
def memAllocValue (scope : Nat) (s : RegState) :
    Except String (Allocation × RegState) :=
  allocateMemoryAddress 1 scope s

namespace RegState

/-- Source `setArray(key, length)`. -/
def setArray (s : RegState) (key : String) (length : Nat) :
    Except String (ArrayAllocation × RegState) :=
  if s.has (some key) then
    .error ("Variable " ++ key ++ " already exists")
  else
    match memAllocArray length s.currentScope s with
    | .error e => .error e
    | .ok (allocation, s1) =>
        .ok (allocation,
          { s1 with
            vars := mapSet s1.vars key
              (.array allocation.value allocation.size allocation.scope
                allocation.base allocation.offset) })

/-- Source `setString(key, length)` — delegates to `setArray`. -/
def setString (s : RegState) (key : String) (length : Nat) :
    Except String (ArrayAllocation × RegState) :=
  s.setArray key length

/-- Source `setMemory(key)`. -/
def setMemory (s : RegState) (key : String) : Except String RegState :=
  if s.has (some key) then
    .error ("Variable " ++ key ++ " already exists")
  else
    match memAllocValue s.currentScope s with
    | .error e => .error e
    | .ok (allocation, s1) =>
        .ok { s1 with
              vars := mapSet s1.vars key
                (.memory allocation.value allocation.size allocation.scope) }

/-- Source `setConst(key, value)`: permanently record the name in `constNames` and
bind a storage-free const entry. -/
def setConst (s : RegState) (key : String) (value : Int) : Except String RegState :=
  if s.has (some key) then
    .error ("Variable " ++ key ++ " already exists")
  else
    .ok { s with
          constNames := key :: s.constNames,
          vars := mapSet s.vars key (.const value s.currentScope 0) }

/-- Source `getConst(key)`. -/
def getConst (s : RegState) (key : String) : Option Int :=
  match mapGet s.vars key with
  | some (.const v _ _) => some v
  | _ => none

/-- Source `getArray(key)`. -/
def getArray (s : RegState) (key : String) : Option ArrayAllocation :=
  match mapGet s.vars key with
  | some (.array value size scope base offset) =>
      some { value := value, size := size, scope := scope, base := base, offset := offset }
  | _ => none

/-- Source `enterScope()`. -/
def enterScope (s : RegState) : RegState :=
  let c := s.currentScope + 1
  { s with currentScope := c, scopeStack := c :: s.scopeStack }

/-- Source `exitScope()`: pop the scope stack (throwing only when it is empty), free
the registers of register bindings tagged with the popped id, drop every
binding tagged with it, and fall back to the parent id (or 0). -/
def exitScope (s : RegState) : Except String RegState :=
  match s.scopeStack with
  | [] => .error "Cannot exit scope: no scope to exit"
  | exitingScope :: rest =>
      let removing := s.vars.filter (fun p => p.2.scope == exitingScope)
      let s1 := s.free (removing.filterMap (fun p => p.2.registerValue))
      .ok { s1 with
            vars := s1.vars.filter (fun p => !(p.2.scope == exitingScope)),
            scopeStack := rest,
            currentScope := rest.headD 0 }

end RegState

/-! Section: source-tree fragment (estree nodes used by the verified modules) -/

inductive LitValue where
  | num (n : Int)
  | str (s : String)
deriving DecidableEq, Repr

/-- The string a literal contributes to an instruction operand
(JS template interpolation of `node.value`). -/
def LitValue.toOperand : LitValue → String
  | .num n => toString n
  | .str s => s

inductive Expr where
  | identifier (name : String)
  | literal (value : LitValue)
  | binary (operator : String) (left : Expr) (right : Expr)
  | member (object : String) (property : Expr)
deriving DecidableEq, Repr

def Expr.isIdent : Expr → Bool
  | .identifier _ => true
  | _ => false

inductive Stmt where
  | continueStmt
  | breakStmt
  | emptyStmt
  | doWhile (body : Stmt) (test : Expr)
deriving DecidableEq, Repr

/-! Section: emission context (`CompilerContext.ts`, `Stack.ts`)

Comment generation is not modelled; an emitted line is kept as its mnemonic
plus operand strings. The JS handler stacks push/pop at the array end; we keep
the top at the head. -/

inductive AsmEntry where
  | instruction (mnemonic : String) (operands : List String)
  | label (name : String)
  | blank
deriving DecidableEq, Repr

structure Ctx where
  assembly : List AsmEntry
  labelCount : Nat
  breakHandlerStack : List String
  continueHandlerStack : List String
  regs : RegState
deriving DecidableEq, Repr

def initCtx : Ctx where
  assembly := []
  labelCount := 0
  breakHandlerStack := []
  continueHandlerStack := []
  regs := initRegState

/-- Does the character list start with the given pattern? -/
def charsStartWith : List Char → List Char → Bool
  | _, [] => true
  | [], _ :: _ => false
  | a :: s, b :: p => a == b && charsStartWith s p

/-- Does the character list contain the pattern as a contiguous run? -/
def charsContain (s pat : List Char) : Bool :=
  match s with
  | [] => charsStartWith [] pat
  | _ :: tl => charsStartWith s pat || charsContain tl pat

/-- Helper for JS `label.includes(pat)`: substring containment. -/
def strContains (s pat : String) : Bool :=
  charsContain s.data pat.data

/-- Helper for JS truthiness of an optional string (`undefined` and `""` are falsy). -/
def varNameTruthy : Option String → Bool
  | none => false
  | some v => !(v == "")

namespace Ctx

def emitInstruction (ctx : Ctx) (mnemonic : String) (operands : List String) : Ctx :=
  { ctx with assembly := ctx.assembly ++ [.instruction mnemonic operands] }

def emitBlank (ctx : Ctx) : Ctx :=
  { ctx with assembly := ctx.assembly ++ [.blank] }

/-- Source `emitLabel`: a blank line precedes a `_start` label (when output exists)
and follows an `_end` label. -/
def emitLabel (ctx : Ctx) (label : String) : Ctx :=
  let ctx := if ctx.assembly.length > 0 && strContains label "_start" then ctx.emitBlank else ctx
  let ctx := { ctx with assembly := ctx.assembly ++ [.label label] }
  if strContains label "_end" then ctx.emitBlank else ctx

end Ctx

structure LabelSet where
  key : String
  startLabel : String
  endLabel : String
deriving DecidableEq, Repr

/-- Source `newLabel(text, unique?)`: `.`‑prefixed label, a counter value baked in
when `unique` (the counter advances only then). -/
def Ctx.newLabel (ctx : Ctx) (text : String) (unique : Bool) : LabelSet × Ctx :=
  let label := "." ++ (if unique then toString ctx.labelCount ++ "_" else "") ++ text
  ({ key := label, startLabel := label ++ "_start", endLabel := label ++ "_end" },
   if unique then { ctx with labelCount := ctx.labelCount + 1 } else ctx)

/-- Source `Stack.peek()` — throws on an empty stack. -/
def stackPeek (items : List String) (errorMessage : String) : Except String String :=
  match items with
  | [] => .error errorMessage
  | top :: _ => .ok top

/-- Source `Stack.pop()` — throws on an empty stack. -/
def stackPop (items : List String) (errorMessage : String) :
    Except String (String × List String) :=
  match items with
  | [] => .error errorMessage
  | top :: rest => .ok (top, rest)

/-! Section: expression lowering (`compileValue.ts`) -/

/-- Source `compileLiteralValue`: the literal `0` in value position with a falsy
`varName` reuses the hard-wired zero register and emits nothing; otherwise a
fresh register is acquired and an `LDI` of the value is emitted into it. -/
def compileLiteralValue (ctx : Ctx) (value : LitValue) (varName : Option String) :
    Except String (String × Ctx) :=
  if value == .num 0 && !(varNameTruthy varName) then
    .ok (ZERO_REGISTER, ctx)
  else
    match ctx.regs.next with
    | .error e => .error e
    | .ok (reg, s) =>
        .ok (reg, ({ ctx with regs := s }).emitInstruction "LDI" [reg, value.toOperand])

/-- Source `compileIdentifierValue`: a visible const is materialized with an `LDI` of
its define-name; otherwise `registers.get` resolves (or auto-allocates) the
register. -/
def compileIdentifierValue (ctx : Ctx) (name : String) :
    Except String (String × Ctx) :=
  match ctx.regs.getConst name with
  | some _ =>
      match ctx.regs.next with
      | .error e => .error e
      | .ok (reg, s) =>
          .ok (reg, ({ ctx with regs := s }).emitInstruction "LDI" [reg, name])
  | none =>
      match ctx.regs.get (some name) with
      | .error e => .error e
      | .ok (reg, s) => .ok (reg, { ctx with regs := s })

/-- Helper for JS `index < 0` on a literal (false for a string literal). -/
def litIndexNeg : LitValue → Bool
  | .num n => n < 0
  | .str _ => false

/-- Helper for JS `index >= arrayInfo.size` on a literal (false for a string literal). -/
def litIndexGe (l : LitValue) (size : Nat) : Bool :=
  match l with
  | .num n => (size : Int) ≤ n
  | .str _ => false

/-- Helper for JS `arrayInfo.value + index` (numeric addition, string concatenation). -/
def litAddress (value : Nat) : LitValue → String
  | .num n => toString ((value : Int) + n)
  | .str s => toString value ++ s

/-- Source `compileValue` with the member-access (`compileMemberValue`) and binary
(`compileBinaryValue`) cases of `compileValue.ts` inlined at their dispatch
sites. Call and unary expressions are outside the verified fragment. -/
def compileValue (ctx : Ctx) (node : Expr) (varName : Option String) :
    Except String (String × Ctx) :=
  match node with
  | .identifier name => compileIdentifierValue ctx name
  | .literal v => compileLiteralValue ctx v varName
  | .member object property =>
      -- compileMemberValue
      match ctx.regs.getArray object with
      | none => .error (object ++ " is not an array")
      | some arrayInfo =>
          if property == .identifier "length" then
            match ctx.regs.next with
            | .error e => .error e
            | .ok (lengthReg, s) =>
                .ok (lengthReg, ({ ctx with regs := s }).emitInstruction "LDI"
                  [lengthReg, toString arrayInfo.size])
          else
            match property with
            | .literal lit =>
                -- static index: arr[5]; absolute address through a temp register
                if litIndexNeg lit || litIndexGe lit arrayInfo.size then
                  .error ("Array index " ++ lit.toOperand ++ " out of bounds for " ++
                    object ++ "[0.." ++ toString (arrayInfo.size - 1) ++ "]")
                else
                  match ctx.regs.next with
                  | .error e => .error e
                  | .ok (addrReg, s1) =>
                      let ctx := ({ ctx with regs := s1 }).emitInstruction "LDI"
                        [addrReg, litAddress arrayInfo.value lit]
                      match ctx.regs.next with
                      | .error e => .error e
                      | .ok (resultReg, s2) =>
                          let ctx := ({ ctx with regs := s2 }).emitInstruction "LOAD"
                            [addrReg, resultReg]
                          .ok (resultReg, { ctx with regs := ctx.regs.free [addrReg] })
            | .identifier propName =>
                -- dynamic index with simple identifier: arr[i]
                match ctx.regs.get (some propName) with
                | .error e => .error e
                | .ok (offsetReg, s1) =>
                    match (show RegState from s1).next with
                    | .error e => .error e
                    | .ok (addrReg, s2) =>
                        let ctx := ({ ctx with regs := s2 }).emitInstruction "LDI"
                          [addrReg, toString arrayInfo.base]
                        match ctx.regs.next with
                        | .error e => .error e
                        | .ok (finalAddrReg, s3) =>
                            let ctx := ({ ctx with regs := s3 }).emitInstruction "ADD"
                              [addrReg, offsetReg, finalAddrReg]
                            match ctx.regs.next with
                            | .error e => .error e
                            | .ok (resultReg, s4) =>
                                let ctx := ({ ctx with regs := s4 }).emitInstruction "LOAD"
                                  [finalAddrReg, resultReg]
                                .ok (resultReg,
                                  { ctx with regs := ctx.regs.free [addrReg, finalAddrReg] })
            | prop =>
                -- expression in index: arr[i + 1]
                match compileValue ctx prop none with
                | .error e => .error e
                | .ok (offsetReg, ctx) =>
                    match ctx.regs.next with
                    | .error e => .error e
                    | .ok (addrReg, s2) =>
                        let ctx := ({ ctx with regs := s2 }).emitInstruction "LDI"
                          [addrReg, toString arrayInfo.value]
                        match ctx.regs.next with
                        | .error e => .error e
                        | .ok (finalAddrReg, s3) =>
                            let ctx := ({ ctx with regs := s3 }).emitInstruction "ADD"
                              [addrReg, offsetReg, finalAddrReg]
                            match ctx.regs.next with
                            | .error e => .error e
                            | .ok (resultReg, s4) =>
                                let ctx := ({ ctx with regs := s4 }).emitInstruction "LOAD"
                                  [finalAddrReg, resultReg]
                                .ok (resultReg,
                                  { ctx with regs :=
                                      ctx.regs.free [offsetReg, addrReg, finalAddrReg] })
  | .binary operator left right =>
      -- compileBinaryValue
      match left, right with
      | .identifier leftName, .literal rlit =>
          -- identifier ⊕ literal: immediate form, in place only when assigning back
          match compileIdentifierValue ctx leftName with
          | .error e => .error e
          | .ok (leftReg, ctx) =>
              let canModifyInPlace := varName == some leftName
              match operator with
              | "+" =>
                  if canModifyInPlace then
                    .ok (leftReg, ctx.emitInstruction "ADDI" [leftReg, rlit.toOperand])
                  else
                    match ctx.regs.next with
                    | .error e => .error e
                    | .ok (dest, s1) =>
                        let ctx := ({ ctx with regs := s1 }).emitInstruction "MOVE"
                          [leftReg, dest]
                        .ok (dest, ctx.emitInstruction "ADDI" [dest, rlit.toOperand])
              | "-" =>
                  if canModifyInPlace then
                    .ok (leftReg, ctx.emitInstruction "SUBI" [leftReg, rlit.toOperand])
                  else
                    match ctx.regs.next with
                    | .error e => .error e
                    | .ok (dest, s1) =>
                        let ctx := ({ ctx with regs := s1 }).emitInstruction "MOVE"
                          [leftReg, dest]
                        .ok (dest, ctx.emitInstruction "SUBI" [dest, rlit.toOperand])
              | _ => .error ("Unsupported binary op with literal: " ++ operator)
      | .literal llit, .identifier rightName =>
          -- literal ⊕ identifier
          match operator with
          | "+" =>
              match compileIdentifierValue ctx rightName with
              | .error e => .error e
              | .ok (rightReg, ctx) =>
                  .ok (rightReg, ctx.emitInstruction "ADDI" [rightReg, llit.toOperand])
          | "-" =>
              match compileLiteralValue ctx llit none with
              | .error e => .error e
              | .ok (leftReg, ctx) =>
                  match compileIdentifierValue ctx rightName with
                  | .error e => .error e
                  | .ok (rightReg, ctx) =>
                      match ctx.regs.next with
                      | .error e => .error e
                      | .ok (dest, s1) =>
                          let ctx := ({ ctx with regs := s1 }).emitInstruction "SUB"
                            [leftReg, rightReg, dest]
                          .ok (dest, { ctx with regs := ctx.regs.free [leftReg] })
          | _ => .error ("Unsupported literal+reg operator: " ++ operator)
      | _, _ =>
          -- general reg ⊕ reg case
          match compileValue ctx left none with
          | .error e => .error e
          | .ok (leftReg, ctx) =>
              match compileValue ctx right none with
              | .error e => .error e
              | .ok (rightReg, ctx) =>
                  match ctx.regs.get varName with
                  | .error e => .error e
                  | .ok (dest, s1) =>
                      let emitted : Except String Ctx :=
                        match operator with
                        | "+" => .ok (({ ctx with regs := s1 }).emitInstruction "ADD"
                            [leftReg, rightReg, dest])
                        | "-" => .ok (({ ctx with regs := s1 }).emitInstruction "SUB"
                            [leftReg, rightReg, dest])
                        | _ => .error ("Unsupported binary op: " ++ operator)
                      match emitted with
                      | .error e => .error e
                      | .ok ctx =>
                          let ctx :=
                            if leftReg != dest && !left.isIdent then
                              { ctx with regs := ctx.regs.free [leftReg] }
                            else ctx
                          let ctx :=
                            if rightReg != dest && !right.isIdent then
                              { ctx with regs := ctx.regs.free [rightReg] }
                            else ctx
                          .ok (dest, ctx)
termination_by structural node

/-! Section: comparison lowering for branches (`binaryExpression.ts`) -/

/-- Source `beforeCompile`: normalize the six relational operators onto the two
machine conditions plus equality forms, commuting `<=` and `>`. -/
def beforeCompile (operator : String) (left right : Expr) :
    Except String (Expr × Expr × String) :=
  match operator with
  | "===" => .ok (left, right, "==")
  | "==" => .ok (left, right, "==")
  | "!==" => .ok (left, right, "!=")
  | "!=" => .ok (left, right, "!=")
  | "<=" => .ok (right, left, ">=")
  | ">=" => .ok (left, right, ">=")
  | ">" => .ok (right, left, "<")
  | "<" => .ok (left, right, "<")
  | _ => .error ("Unsupported test operator: " ++ operator)

/-- Source `compileBinaryExpression`: lower both operands, emit `CMP`, a conditional
`BRANCH` to the true label and a `JUMP` to the false label, then free operand
registers that are not named variables. -/
def compileBinaryExpression (ctx : Ctx) (operator : String) (leftNode rightNode : Expr)
    (trueLabel falseLabel : String) : Except String Ctx :=
  match beforeCompile operator leftNode rightNode with
  | .error e => .error e
  | .ok (left, right, op) =>
      match compileValue ctx left none with
      | .error e => .error e
      | .ok (leftReg, ctx) =>
          match compileValue ctx right none with
          | .error e => .error e
          | .ok (rightReg, ctx) =>
              let ctx := ctx.emitInstruction "CMP" [leftReg, rightReg]
              let ctx := ctx.emitInstruction "BRANCH" [op, trueLabel]
              let ctx := ctx.emitInstruction "JUMP" [falseLabel]
              let ctx :=
                if !left.isIdent then { ctx with regs := ctx.regs.free [leftReg] } else ctx
              let ctx :=
                if !right.isIdent then { ctx with regs := ctx.regs.free [rightReg] } else ctx
              .ok ctx

/-! Section: statement lowering (`continueStatement.ts`, `breakStatement.ts`,
`doWhileStatement.ts`, dispatch of `statementCompiler.ts`) -/

/-- Source `compileContinueStatement`: jump to the top of the continue handler
stack. -/
def compileContinueStatement (ctx : Ctx) : Except String Ctx :=
  match stackPeek ctx.continueHandlerStack "continue used outside a valid context" with
  | .error e => .error e
  | .ok label => .ok (ctx.emitInstruction "JUMP" [label])

/-- Source `compileBreakStatement`. -/
def compileBreakStatement (ctx : Ctx) : Except String Ctx :=
  match stackPeek ctx.breakHandlerStack "break used outside a valid context" with
  | .error e => .error e
  | .ok label => .ok (ctx.emitInstruction "JUMP" [label])

/-- Statement dispatch with `compileDoWhileStatement` inlined: the do-while
lowering enters a scope, pushes `endLabel` as break target and `bodyLabel` as
continue target, emits body then test, and exits the scope. -/
def compileNode (ctx : Ctx) (node : Stmt) : Except String Ctx :=
  match node with
  | .continueStmt => compileContinueStatement ctx
  | .breakStmt => compileBreakStatement ctx
  | .emptyStmt => .ok ctx
  | .doWhile body test =>
      -- compileDoWhileStatement
      let ctx := { ctx with regs := ctx.regs.enterScope }
      let (labels, ctx) := ctx.newLabel "dowhile" true
      let bodyLabel := labels.key ++ "_body"
      let ctx := { ctx with
        breakHandlerStack := labels.endLabel :: ctx.breakHandlerStack,
        continueHandlerStack := bodyLabel :: ctx.continueHandlerStack }
      let ctx := ctx.emitLabel bodyLabel
      match compileNode ctx body with
      | .error e => .error e
      | .ok ctx =>
          let ctx := ctx.emitLabel labels.startLabel
          let afterTest : Except String Ctx :=
            match test with
            | .binary op l r =>
                compileBinaryExpression ctx op l r bodyLabel labels.endLabel
            | _ => .ok ctx
          match afterTest with
          | .error e => .error e
          | .ok ctx =>
              let ctx := ctx.emitLabel labels.endLabel
              match stackPop ctx.breakHandlerStack "break used outside a valid context" with
              | .error e => .error e
              | .ok (_, bs) =>
                  match stackPop ctx.continueHandlerStack
                      "continue used outside a valid context" with
                  | .error e => .error e
                  | .ok (_, cs) =>
                      let ctx := { ctx with breakHandlerStack := bs,
                                            continueHandlerStack := cs }
                      match ctx.regs.exitScope with
                      | .error e => .error e
                      | .ok s => .ok { ctx with regs := s }
termination_by structural node

/-! Section: string literal assignment (`assignmentExpression.ts`) -/

/-- Body of the per-character store loop in `compileStringLiteralAssignment`:
load the character immediate, then store it at `baseReg` plus the signed
offset `i - offset`. -/
def storeCharStep (baseReg valueReg : String) (value : String) (offset : Nat)
    (ctx : Ctx) (i : Nat) : Ctx :=
  let char := String.singleton (value.data.getD i (Char.ofNat 0))
  let ctx := ctx.emitInstruction "LDI" [valueReg, "\"" ++ char ++ "\""]
  let off : Int := (i : Int) - (offset : Int)
  ctx.emitInstruction "STORE" [baseReg, valueReg, toString off]

/-- Source `compileStringLiteralAssignment`: reject strings longer than 10 characters
before any allocation; otherwise allocate the string as an array of its
length and store each character through the base register plus the signed
offset `i - allocation.offset`. -/
def compileStringLiteralAssignment (ctx : Ctx) (value : String) (name : String) :
    Except String Ctx :=
  if value.length > 10 then
    .error ("String '" ++ value ++ "' exceeds maximum length of 10 characters")
  else
    match ctx.regs.setString name value.length with
    | .error e => .error e
    | .ok (allocation, s1) =>
        match (show RegState from s1).next with
        | .error e => .error e
        | .ok (baseReg, s2) =>
            let ctx := ({ ctx with regs := s2 }).emitInstruction "LDI"
              [baseReg, toString allocation.base]
            match ctx.regs.next with
            | .error e => .error e
            | .ok (valueReg, s3) =>
                let ctx := { ctx with regs := s3 }
                let ctx := (List.range allocation.size).foldl
                  (storeCharStep baseReg valueReg value allocation.offset) ctx
                .ok { ctx with regs := ctx.regs.free [baseReg, valueReg] }

/-! Section: concrete programs and states used in the verification -/

/-- Program `do { continue; } while (x < 1);`. -/
def doWhileContinueProgram : Stmt :=
  .doWhile .continueStmt (.binary "<" (.identifier "x") (.literal (.num 1)))

/-- Assembly produced for `doWhileContinueProgram` from a fresh context. -/
def doWhileContinueAssembly : List AsmEntry :=
  [.label ".0_dowhile_body",
   .instruction "JUMP" [".0_dowhile_body"],
   .blank,
   .label ".0_dowhile_start",
   .instruction "LDI" ["r2", "1"],
   .instruction "CMP" ["r1", "r2"],
   .instruction "BRANCH" ["<", ".0_dowhile_body"],
   .instruction "JUMP" [".0_dowhile_end"],
   .label ".0_dowhile_end",
   .blank]

/-- State after `setArray "arr" 3` on the initial state. -/
def memberReadState : RegState :=
  match initRegState.setArray "arr" 3 with
  | .ok (_, s) => s
  | .error _ => initRegState

def memberReadCtx : Ctx := { initCtx with regs := memberReadState }

def memberReadS1 : RegState :=
  match memberReadState.next with
  | .ok (_, s) => s
  | .error _ => memberReadState

def memberReadS2 : RegState :=
  match memberReadS1.next with
  | .ok (_, s) => s
  | .error _ => memberReadS1

/-- State after `enterScope(); setConst("x", 5)`. -/
def constScopeAfterSetConst : RegState :=
  match (RegState.enterScope initRegState).setConst "x" 5 with
  | .ok s => s
  | .error _ => initRegState

/-- State after the const's declaring scope has exited. -/
def constScopeAfterExit : RegState :=
  match constScopeAfterSetConst.exitScope with
  | .ok s => s
  | .error _ => constScopeAfterSetConst

/-- State after `set "x"` on the initial state (binds register r1). -/
def afterSetX : RegState :=
  match initRegState.set "x" none with
  | .ok (_, s) => s
  | .error _ => initRegState

/-- Bind each name in order to a fresh register via `set`. -/
def bindFresh (s : RegState) (names : List String) : Except String RegState :=
  names.foldlM (fun s n => (s.set n none).map Prod.snd) s

/-- Acquire `n` registers in sequence via `next`. -/
def acquireN (s : RegState) (n : Nat) : Except String RegState :=
  (List.range n).foldlM (fun s _ => s.next.map Prod.snd) s

/-- Register-reuse round trip: bind `m` outer registers, enter a scope, bind
`n` scope-local register variables, exit the scope, then acquire `n`
registers again; `true` when no step raises an error. -/
def registerRoundTrip (m n : Nat) : Bool :=
  ((((bindFresh initRegState ((List.range m).map (fun i => "u" ++ toString i))).bind
      (fun s => bindFresh s.enterScope
        ((List.range n).map (fun i => "v" ++ toString i)))).bind
    (fun s => s.exitScope)).bind
    (fun s => acquireN s n)).isOk

/-- State with a register variable bound inside scope 1. -/
def scopedRegPre : RegState :=
  match (RegState.enterScope initRegState).set "x" none with
  | .ok (_, s) => s
  | .error _ => initRegState

/-- State after exiting scope 1 of `scopedRegPre`. -/
def scopedRegPost : RegState :=
  match scopedRegPre.exitScope with
  | .ok s => s
  | .error _ => scopedRegPre

/-- State after exiting the base scope of the initial state. -/
def exitBasePost : RegState :=
  match initRegState.exitScope with
  | .ok s => s
  | .error _ => initRegState

/-- Context produced by compiling the string assignment `s = "hi"`. -/
def stringAssignPost : Ctx :=
  match compileStringLiteralAssignment initCtx "hi" "s" with
  | .ok c => c
  | .error _ => initCtx

/-- Allocation returned by `memoryAllocator.Array(10)` on the initial state. -/
def c1Info : ArrayAllocation :=
  { value := 0, size := 10, scope := 0, base := 1, offset := 1 }

/-- State after `memoryAllocator.Array(10)` on the initial state. -/
def c1State : RegState := { initRegState with nextMemoryAddress := 10 }

/-- Array info bound for `arr` in `memberReadState`. -/
def memberReadInfo : ArrayAllocation :=
  { value := 0, size := 3, scope := 0, base := 0, offset := 0 }

/-! Section: general lemmas about the embedded map and register file -/

theorem mapGet_cons {α : Type} (a : String × α) (m : List (String × α)) (k : String) :
    mapGet (a :: m) k = if a.1 == k then some a.2 else mapGet m k := by
  by_cases h : a.1 == k <;> simp [mapGet, List.find?, h]

theorem mapGet_eq_none_iff {α : Type} (m : List (String × α)) (k : String) :
    mapGet m k = none ↔ m.any (fun p => p.1 == k) = false := by
  induction m with
  | nil => simp [mapGet]
  | cons a tl ih =>
      by_cases h : a.1 == k <;> simp [mapGet_cons, h, ih]

theorem mapGet_eq_none_of_not_mem_keys {α : Type} (m : List (String × α)) (k : String)
    (h : k ∉ m.map Prod.fst) : mapGet m k = none := by
  rw [mapGet_eq_none_iff]
  rw [List.any_eq_false]
  intro p hp
  simp only [beq_iff_eq]
  intro hpk
  exact h (hpk ▸ List.mem_map_of_mem Prod.fst hp)

theorem mapGet_map_replace {α : Type} (m : List (String × α)) (k k' : String) (v : α)
    (h : ¬ k' = k) :
    mapGet (m.map fun p => if p.1 == k then (k, v) else p) k' = mapGet m k' := by
  induction m with
  | nil => rfl
  | cons a tl ih =>
      simp only [beq_iff_eq] at ih ⊢
      by_cases ha : a.1 = k
      · have hkv : ¬ k = k' := fun e => h e.symm
        have hav : ¬ a.1 = k' := by rw [ha]; exact hkv
        simp [List.map_cons, mapGet_cons, ha, hkv, hav, h, ih]
      · by_cases h2 : a.1 = k' <;>
          simp [List.map_cons, mapGet_cons, ha, h2, h, ih]

theorem mapGet_map_replace_self {α : Type} (m : List (String × α)) (k : String) (v : α)
    (h : m.any (fun p => p.1 == k) = true) :
    mapGet (m.map fun p => if p.1 == k then (k, v) else p) k = some v := by
  induction m with
  | nil => simp at h
  | cons a tl ih =>
      simp only [beq_iff_eq] at ih h ⊢
      by_cases hk : a.1 = k
      · simp [mapGet_cons, hk]
      · have h' : tl.any (fun p => p.1 = k) = true := by
          simpa [List.any_cons, hk] using h
        simp [mapGet_cons, hk, ih h']

theorem mapGet_append_single {α : Type} (m : List (String × α)) (k k' : String) (v : α) :
    mapGet (m ++ [(k, v)]) k'
      = match mapGet m k' with
        | some w => some w
        | none => if k == k' then some v else none := by
  induction m with
  | nil =>
      by_cases hk : k = k'
      · simp [mapGet, List.find?, hk]
      · have h1 : (k == k') = false := beq_eq_false_iff_ne.mpr hk
        simp [mapGet, List.find?, h1]
  | cons a tl ih =>
      by_cases h : a.1 == k' <;> simp [mapGet_cons, h, ih]

theorem mapGet_mapSet {α : Type} (m : List (String × α)) (k k' : String) (v : α) :
    mapGet (mapSet m k v) k' = if k' == k then some v else mapGet m k' := by
  unfold mapSet
  by_cases hany : m.any (fun p => p.1 == k) = true
  · rw [if_pos hany]
    by_cases hk : k' = k
    · subst hk
      rw [if_pos (by simp)]
      exact mapGet_map_replace_self m k' v hany
    · rw [if_neg (by simpa using hk)]
      exact mapGet_map_replace m k k' v hk
  · rw [if_neg hany]
    rw [mapGet_append_single]
    by_cases hk : k' = k
    · subst hk
      have hnone : mapGet m k' = none :=
        (mapGet_eq_none_iff m k').mpr (Bool.eq_false_iff.mpr hany)
      simp [hnone]
    · cases hmk : mapGet m k' with
      | some w => simp [hk]
      | none =>
          have h1 : (k == k') = false := beq_eq_false_iff_ne.mpr (fun e => hk e.symm)
          simp [hk, h1]

theorem contains_iff_mem (L : List String) (r : String) :
    L.contains r = true ↔ r ∈ L := by
  simp [List.contains_iff_exists_mem_beq, beq_iff_eq]

theorem mapGet_freeFold (L : List String) (m : List (String × Bool)) (r : String) :
    mapGet
        (L.foldl
          (fun m reg => if GENERIC_REGISTERS.contains reg then mapSet m reg false else m) m)
        r
      = if r ∈ L ∧ r ∈ GENERIC_REGISTERS then some false else mapGet m r := by
  induction L generalizing m with
  | nil => simp
  | cons a L ih =>
      rw [List.foldl_cons, ih]
      by_cases hL : r ∈ L ∧ r ∈ GENERIC_REGISTERS
      · simp [hL, hL.2, List.mem_cons.mpr (Or.inr hL.1)]
      · rw [if_neg hL]
        by_cases hra : r = a
        · subst hra
          by_cases hg : r ∈ GENERIC_REGISTERS
          · rw [if_pos ((contains_iff_mem _ _).mpr hg)]
            simp [mapGet_mapSet, hg]
          · rw [if_neg (by simpa [contains_iff_mem] using hg)]
            simp [hg]
        · have hcon : ¬ (r ∈ a :: L ∧ r ∈ GENERIC_REGISTERS) := by
            rintro ⟨hmem, hrg⟩
            rcases List.mem_cons.mp hmem with hh | hh
            · exact hra hh
            · exact hL ⟨hh, hrg⟩
          by_cases hg : GENERIC_REGISTERS.contains a = true
          · rw [if_pos hg, mapGet_mapSet, if_neg (by simp [hra]), if_neg hcon]
          · rw [if_neg hg, if_neg hcon]

theorem mapGet_free_registers (s : RegState) (L : List String) (r : String) :
    mapGet (s.free L).registers r
      = if r ∈ L ∧ r ∈ GENERIC_REGISTERS then some false else mapGet s.registers r :=
  mapGet_freeFold L s.registers r

theorem next_ok_spec (s : RegState) (r : String) (s' : RegState)
    (h : s.next = .ok (r, s')) :
    r ∈ GENERIC_REGISTERS ∧ (mapGet s.registers r).getD false = false
      ∧ s' = { s with registers := mapSet s.registers r true } := by
  unfold RegState.next at h
  cases hf : GENERIC_REGISTERS.find? (fun r => !((mapGet s.registers r).getD false)) with
  | none => rw [hf] at h; cases h
  | some r0 =>
      rw [hf] at h
      have hfp := List.find?_some hf
      have hfm := List.mem_of_find?_eq_some hf
      simp only [Except.ok.injEq, Prod.mk.injEq] at h
      obtain ⟨hr, hs⟩ := h
      subst hr
      refine ⟨hfm, by simpa using hfp, hs.symm⟩

theorem foldl_assembly_flatMap {β : Type} (f : Ctx → β → Ctx) (g : β → List AsmEntry)
    (hf : ∀ ctx b, (f ctx b).assembly = ctx.assembly ++ g b)
    (L : List β) (ctx : Ctx) :
    (L.foldl f ctx).assembly = ctx.assembly ++ L.flatMap g := by
  induction L generalizing ctx with
  | nil => simp
  | cons a L ih => simp [List.foldl_cons, ih, hf, List.append_assoc]

theorem foldl_regs_const {β : Type} (f : Ctx → β → Ctx)
    (hf : ∀ ctx b, (f ctx b).regs = ctx.regs) (L : List β) (ctx : Ctx) :
    (L.foldl f ctx).regs = ctx.regs := by
  induction L generalizing ctx with
  | nil => rfl
  | cons a L ih => rw [List.foldl_cons, ih, hf]

theorem allocateMemoryAddress_ok (size scope : Nat) (s : RegState) (a : Allocation)
    (s' : RegState) (h : allocateMemoryAddress size scope s = .ok (a, s')) :
    a = { value := s.nextMemoryAddress, size := size, scope := scope }
      ∧ s' = { s with nextMemoryAddress := s.nextMemoryAddress + size }
      ∧ s.nextMemoryAddress + size < SP_START := by
  unfold allocateMemoryAddress at h
  dsimp only at h
  split at h
  · cases h
  · rename_i hcond
    simp only [Except.ok.injEq, Prod.mk.injEq] at h
    obtain ⟨ha, hs⟩ := h
    refine ⟨ha.symm, hs.symm, ?_⟩
    have hb : isMemoryAddress ((s.nextMemoryAddress + size : Nat) : Int) = true := by
      by_contra hc
      exact hcond (by rw [Bool.eq_false_iff.mpr hc]; rfl)
    simp only [isMemoryAddress, Bool.and_eq_true, decide_eq_true_eq] at hb
    exact_mod_cast hb.2

theorem memAllocArray_ok (length scope : Nat) (s : RegState) (info : ArrayAllocation)
    (s' : RegState) (h : memAllocArray length scope s = .ok (info, s')) :
    info.value = s.nextMemoryAddress ∧ info.size = length ∧ info.scope = scope
      ∧ (info.offset : Int) = max 0 ((length : Int) - (MAX_ARRAY_OFFSET : Int) - 1)
      ∧ info.base = info.value + info.offset
      ∧ s' = { s with nextMemoryAddress := s.nextMemoryAddress + length } := by
  unfold memAllocArray at h
  cases halloc : allocateMemoryAddress length scope s with
  | error e => rw [halloc] at h; cases h
  | ok p =>
      obtain ⟨a, s0⟩ := p
      rw [halloc] at h
      obtain ⟨ha, hs0, _⟩ := allocateMemoryAddress_ok length scope s a s0 halloc
      dsimp only at h
      split at h
      · cases h
      · simp only [Except.ok.injEq, Prod.mk.injEq] at h
        obtain ⟨hinfo, hs⟩ := h
        subst hinfo
        subst ha
        refine ⟨rfl, rfl, rfl, ?_, rfl, by rw [← hs, hs0]⟩
        exact Int.toNat_of_nonneg (le_max_left 0 _)

set_option maxRecDepth 4096 in
theorem setArray_ok (s : RegState) (key : String) (length : Nat)
    (info : ArrayAllocation) (s₁ : RegState)
    (h : s.setArray key length = .ok (info, s₁)) :
    s.has (some key) = false
      ∧ ∃ s0, memAllocArray length s.currentScope s = .ok (info, s0)
        ∧ s₁ = { s0 with
            vars := mapSet s0.vars key
              (VariableInfo.array info.value info.size info.scope info.base info.offset) } := by
  unfold RegState.setArray at h
  split at h
  · cases h
  · rename_i hhas
    cases halloc : memAllocArray length s.currentScope s with
    | error e => rw [halloc] at h; cases h
    | ok p =>
        obtain ⟨a, s0⟩ := p
        rw [halloc] at h
        simp only [Except.ok.injEq, Prod.mk.injEq] at h
        obtain ⟨h1, h2⟩ := h
        subst h1
        exact ⟨Bool.eq_false_iff.mpr hhas, s0, rfl, h2.symm⟩

theorem mapGet_filter_notScope (m : List (String × VariableInfo))
    (hnd : (m.map Prod.fst).Nodup) (id : Nat) (name : String) (info : VariableInfo) :
    mapGet (m.filter fun p => !(p.2.scope == id)) name = some info
      ↔ (mapGet m name = some info ∧ ¬ info.scope = id) := by
  induction m with
  | nil => simp [mapGet]
  | cons a tl ih =>
      obtain ⟨hna, hnd'⟩ := List.nodup_cons.mp hnd
      by_cases hk : a.1 = name
      · subst hk
        by_cases hs : a.2.scope = id
        · have hnone : mapGet (tl.filter fun p => !(p.2.scope == id)) a.1 = none := by
            apply mapGet_eq_none_of_not_mem_keys
            intro hmem
            apply hna
            obtain ⟨p, hp, hpk⟩ := List.mem_map.mp hmem
            exact List.mem_map.mpr ⟨p, (List.mem_filter.mp hp).1, hpk⟩
          rw [List.filter_cons, if_neg (by simp [hs]), hnone, mapGet_cons]
          constructor
          · intro hfalse; cases hfalse
          · rintro ⟨hinfo, hsc⟩
            rw [if_pos (by simp)] at hinfo
            cases hinfo
            exact absurd hs hsc
        · rw [List.filter_cons, if_pos (by simp [hs]), mapGet_cons, mapGet_cons]
          constructor
          · intro hinfo
            rw [if_pos (by simp)] at hinfo
            refine ⟨by rw [if_pos (by simp)]; exact hinfo, ?_⟩
            cases hinfo
            exact hs
          · rintro ⟨hinfo, _⟩
            rw [if_pos (by simp)] at hinfo ⊢
            exact hinfo
      · by_cases hs : a.2.scope = id
        · rw [List.filter_cons, if_neg (by simp [hs]), mapGet_cons,
            if_neg (by simpa using hk)]
          exact ih hnd'
        · rw [List.filter_cons, if_pos (by simp [hs]), mapGet_cons, mapGet_cons,
            if_neg (by simpa using hk), if_neg (by simpa using hk)]
          exact ih hnd'

/-! Section: verification of the specified claims -/

/-- C1: every array allocation of length `L` places the addressing base at
`baseOffsetFromStart = max(0, L - K - 1)` with `K = 8`, so
`baseAddress = startAddress + baseOffsetFromStart`; for `L ∈ {1, 9, 10, 16}`
the computed `baseOffsetFromStart` is `{0, 0, 1, 7}` respectively, and for
those lengths every valid index `i ∈ [0, L-1]` yields an offset
`i - baseOffsetFromStart` lying in `[-7, 8]`. -/
theorem c1_array_base_placement
    (length scope : Nat) (s s' : RegState) (info : ArrayAllocation)
    (h : memAllocArray length scope s = .ok (info, s')) :
    ((info.offset : Int) = max 0 ((length : Int) - 8 - 1)
      ∧ info.base = info.value + info.offset)
    ∧ ((memAllocArray 1 0 initRegState).map (fun p => p.1.offset) = .ok 0
       ∧ (memAllocArray 9 0 initRegState).map (fun p => p.1.offset) = .ok 0
       ∧ (memAllocArray 10 0 initRegState).map (fun p => p.1.offset) = .ok 1
       ∧ (memAllocArray 16 0 initRegState).map (fun p => p.1.offset) = .ok 7)
    ∧ ((∀ i : Nat, i < 1 → -7 ≤ (i : Int) - 0 ∧ (i : Int) - 0 ≤ 8)
       ∧ (∀ i : Nat, i < 9 → -7 ≤ (i : Int) - 0 ∧ (i : Int) - 0 ≤ 8)
       ∧ (∀ i : Nat, i < 10 → -7 ≤ (i : Int) - 1 ∧ (i : Int) - 1 ≤ 8)
       ∧ (∀ i : Nat, i < 16 → -7 ≤ (i : Int) - 7 ∧ (i : Int) - 7 ≤ 8)) := by
  obtain ⟨_, _, _, hoff, hbase, _⟩ := memAllocArray_ok length scope s info s' h
  refine ⟨⟨?_, hbase⟩, by decide, ?_, ?_, ?_, ?_⟩
  · rw [hoff]; norm_num [MAX_ARRAY_OFFSET]
  all_goals intro i hi; constructor <;> omega

/-- C1 witness: the allocation of a length-10 array at the initial state has
`baseOffsetFromStart = 1 = max(0, 10 - 8 - 1)` and
`baseAddress = startAddress + 1`. -/
theorem c1_array_base_placement_witness :
    memAllocArray 10 0 initRegState = .ok (c1Info, c1State)
    ∧ (c1Info.offset : Int) = max 0 ((10 : Int) - 8 - 1)
    ∧ c1Info.base = c1Info.value + c1Info.offset := by
  have h : memAllocArray 10 0 initRegState = .ok (c1Info, c1State) := by decide
  have hc := c1_array_base_placement 10 0 initRegState c1State c1Info h
  exact ⟨h, hc.1.1, hc.1.2⟩

/-- C2 (evidence for the code bug): compiling `do { continue; } while (x < 1)`
emits the continue statement as `JUMP .0_dowhile_body` — the body-start label
pushed on the continue-handler stack by the do-while lowering — while the loop
test is emitted at the distinct label `.0_dowhile_start`; thus continue
re-enters the body without re-evaluating the loop condition, contradicting the
specified contract. -/
theorem c2_doWhile_continue_targets_body :
    (compileNode initCtx doWhileContinueProgram).map Ctx.assembly
      = .ok doWhileContinueAssembly
    ∧ doWhileContinueAssembly.get? 1 = some (.instruction "JUMP" [".0_dowhile_body"])
    ∧ doWhileContinueAssembly.get? 3 = some (.label ".0_dowhile_start")
    ∧ (".0_dowhile_body" : String) ≠ ".0_dowhile_start" := by
  exact ⟨by decide, by decide, by decide, by decide⟩

/-- C3 counterexample: reading `arr[1]` from a 3-element array — a literal
index whose offset from the base (1 - 0 = 1) lies inside the signed range
[-7, 8] — emits two instructions: an `LDI` of the absolute address into the
scratch register `r1` followed by a `LOAD` through it; it is not the single
indexed load against the base register that the claim asserts. -/
theorem c3_counterexample_member_read :
    (compileValue memberReadCtx (.member "arr" (.literal (.num 1))) none).map
        (fun p => (p.1, p.2.assembly))
      = .ok ("r2", [.instruction "LDI" ["r1", "1"], .instruction "LOAD" ["r1", "r2"]])
    ∧ ([AsmEntry.instruction "LDI" ["r1", "1"],
        AsmEntry.instruction "LOAD" ["r1", "r2"]].length = 1 → False) := by
  exact ⟨by decide, by decide⟩

/-- C3 amended: for every array read with a compile-time literal index inside
the declared bounds, the compiler always emits the two-instruction
absolute-address sequence — `LDI` of `startAddress + index` into a freshly
acquired scratch register, then `LOAD` through it into the result register —
and frees the scratch register afterwards; the single base-relative indexed
load is never used for reads, regardless of whether the offset fits the
signed range. -/
theorem c3_member_read_absolute_pair
    (ctx : Ctx) (object : String) (n : Int) (arrayInfo : ArrayAllocation)
    (addrReg resultReg : String) (s1 s2 : RegState)
    (hget : ctx.regs.getArray object = some arrayInfo)
    (h0 : ¬ n < 0) (hsz : ¬ (arrayInfo.size : Int) ≤ n)
    (hn1 : ctx.regs.next = .ok (addrReg, s1))
    (hn2 : s1.next = .ok (resultReg, s2)) :
    compileValue ctx (.member object (.literal (.num n))) none
      = .ok (resultReg,
          { ctx with
            regs := s2.free [addrReg],
            assembly := ctx.assembly
              ++ [.instruction "LDI" [addrReg, toString ((arrayInfo.value : Int) + n)],
                  .instruction "LOAD" [addrReg, resultReg]] })
    ∧ addrReg ∈ GENERIC_REGISTERS
    ∧ mapGet (s2.free [addrReg]).registers addrReg = some false := by
  obtain ⟨hmem, _, _⟩ := next_ok_spec ctx.regs addrReg s1 hn1
  refine ⟨?_, hmem, ?_⟩
  · rw [compileValue]
    rw [hget]
    have hne : (Expr.literal (LitValue.num n) == Expr.identifier "length") = false := rfl
    rw [hne]
    simp only [Bool.false_eq_true, if_false]
    have hb : (litIndexNeg (LitValue.num n) || litIndexGe (LitValue.num n) arrayInfo.size)
        = false := by
      simp [litIndexNeg, litIndexGe, h0, hsz]
    rw [hb]
    simp only [Bool.false_eq_true, if_false, hn1, hn2]
    simp only [Ctx.emitInstruction, litAddress]
    rw [hn2]
    simp [List.append_assoc]
  · rw [mapGet_free_registers]
    rw [if_pos ⟨List.mem_singleton.mpr rfl, hmem⟩]

/-- C3 amended witness: the concrete read `arr[1]` on a 3-element array
exercises the two-instruction absolute-address path. -/
theorem c3_member_read_absolute_pair_witness :
    memberReadCtx.regs.getArray "arr" = some memberReadInfo
    ∧ ¬ (1 : Int) < 0
    ∧ ¬ (memberReadInfo.size : Int) ≤ 1
    ∧ memberReadCtx.regs.next = .ok ("r1", memberReadS1)
    ∧ memberReadS1.next = .ok ("r2", memberReadS2)
    ∧ compileValue memberReadCtx (.member "arr" (.literal (.num 1))) none
        = .ok ("r2",
            { memberReadCtx with
              regs := memberReadS2.free ["r1"],
              assembly := memberReadCtx.assembly
                ++ [.instruction "LDI" ["r1", toString ((memberReadInfo.value : Int) + 1)],
                    .instruction "LOAD" ["r1", "r2"]] }) := by
  refine ⟨by decide, by decide, by decide, by decide, by decide, ?_⟩
  exact (c3_member_read_absolute_pair memberReadCtx "arr" 1 memberReadInfo "r1" "r2"
    memberReadS1 memberReadS2 (by decide) (by decide) (by decide) (by decide) (by decide)).1

/-- C4: a name that was ever declared const is, once unbound (as after its
declaring scope exits), a fatal `Const ... is not defined in this scope` error
on lookup, never silently given a fresh register; an unbound identifier that
was never const instead auto-allocates: `get` falls through to `next`, which
hands out a free generic register. -/
theorem c4_const_scope_fatal (s : RegState) (k : String)
    (hh : s.has (some k) = false) :
    (s.wasEverConst (some k) = true →
      s.get (some k) = .error ("Const '" ++ k ++ "' is not defined in this scope"))
    ∧ (s.wasEverConst (some k) = false → s.get (some k) = s.next)
    ∧ (∀ r s', s.wasEverConst (some k) = false → s.next = .ok (r, s') →
        s.get (some k) = .ok (r, s') ∧ r ∈ GENERIC_REGISTERS
          ∧ (mapGet s.registers r).getD false = false) := by
  refine ⟨?_, ?_, ?_⟩
  · intro hc
    simp [RegState.get, hh, hc]
  · intro hc
    simp [RegState.get, hh, hc]
  · intro r s' hc hnext
    obtain ⟨hmem, hfree, _⟩ := next_ok_spec s r s' hnext
    refine ⟨?_, hmem, hfree⟩
    simp [RegState.get, hh, hc, hnext]

/-- C4 witness: after `enterScope(); const x = 5; exitScope()`, looking up `x`
fails fatally while the never-bound `y` auto-allocates register r1. -/
theorem c4_const_scope_fatal_witness :
    constScopeAfterExit.has (some "x") = false
    ∧ constScopeAfterExit.wasEverConst (some "x") = true
    ∧ constScopeAfterExit.get (some "x")
        = .error ("Const '" ++ "x" ++ "' is not defined in this scope")
    ∧ constScopeAfterExit.has (some "y") = false
    ∧ constScopeAfterExit.wasEverConst (some "y") = false
    ∧ constScopeAfterExit.get (some "y") = constScopeAfterExit.next
    ∧ constScopeAfterExit.next = .ok ("r1", { constScopeAfterExit with
        registers := mapSet constScopeAfterExit.registers "r1" true }) := by
  refine ⟨by decide, by decide, ?_, by decide, by decide, ?_, by decide⟩
  · exact (c4_const_scope_fatal constScopeAfterExit "x" (by decide)).1 (by decide)
  · exact (c4_const_scope_fatal constScopeAfterExit "y" (by decide)).2.1 (by decide)

/-- C5 counterexample, falsifying both prongs of the claim at concrete
inputs. First prong: `set "x"` twice on the initial state — the second call
does not fail with a duplicate-binding error; it succeeds and silently
returns the same register r1 that the first call bound. Second prong: after
`enterScope(); setConst("x", 5); exitScope()` the name `x` is still in the
permanent Const reservation set, yet binding it again — via `setConst` or
via `set` — succeeds without any error. -/
theorem c5_counterexample_set_rebind :
    (initRegState.set "x" none).map Prod.fst = .ok "r1"
    ∧ ((initRegState.set "x" none).bind (fun p => p.2.set "x" none)).map Prod.fst
        = .ok "r1"
    ∧ ((initRegState.set "x" none).bind (fun p => p.2.set "x" none)).isOk = true
    ∧ constScopeAfterExit.wasEverConst (some "x") = true
    ∧ (constScopeAfterExit.setConst "x" 2).isOk = true
    ∧ (constScopeAfterExit.set "x" none).map Prod.fst = .ok "r1" := by
  exact ⟨by decide, by decide, by decide, by decide, by decide, by decide⟩

/-- C5 amended: while a name is currently bound (present in the variables
map), binding it again as an array, memory cell, or const fails with the
duplicate `Variable ... already exists` error; binding it again through
`set` never raises a duplicate-binding error — `set` returns `get(key)`,
which silently yields the existing register when the current binding is a
register binding, and raises a kind-mismatch error (`is an array, not a
register` / `is in memory, not a register`) when it is an array, memory, or
const binding. A name permanently reserved as Const is protected only while
its binding is present: the binding operations consult only the current
variables map, never the Const reservation set, so once the name is unbound
(as after its scope exits) `setConst` and `set` both succeed on it. -/
theorem c5_duplicate_binding (s : RegState) (k : String) (len : Nat) (v : Int)
    (hb : s.has (some k) = true) :
    s.setArray k len = .error ("Variable " ++ k ++ " already exists")
    ∧ s.setMemory k = .error ("Variable " ++ k ++ " already exists")
    ∧ s.setConst k v = .error ("Variable " ++ k ++ " already exists")
    ∧ s.set k none = s.get (some k)
    ∧ (∀ r sc sz, mapGet s.vars k = some (.register r sc sz) →
        REGISTERS.contains r = true → s.set k none = .ok (r, s))
    ∧ (∀ a b c d e, mapGet s.vars k = some (.array a b c d e) →
        s.set k none
          = .error ("Variable " ++ k ++ " is an array, not a register. Use getArray()"))
    ∧ (∀ a b c, mapGet s.vars k = some (.memory a b c) →
        s.set k none
          = .error ("Variable " ++ k
              ++ " is in memory, not a register. Use getMemory() or getConst()"))
    ∧ (∀ cv sc sz, mapGet s.vars k = some (.const cv sc sz) →
        s.set k none
          = .error ("Variable " ++ k
              ++ " is in memory, not a register. Use getMemory() or getConst()"))
    ∧ (∀ (s2 : RegState) (k2 : String) (v2 : Int), s2.has (some k2) = false →
        s2.setConst k2 v2
          = .ok { s2 with
              constNames := k2 :: s2.constNames,
              vars := mapSet s2.vars k2 (.const v2 s2.currentScope 0) })
    ∧ (∀ (s2 : RegState) (k2 : String) (r : String) (s2' : RegState),
        s2.has (some k2) = false → s2.next = .ok (r, s2') →
        s2.set k2 none
          = .ok (r, { s2' with
              vars := mapSet s2'.vars k2 (.register r s2'.currentScope 1) })) := by
  refine ⟨?_, ?_, ?_, ?_, ?_, ?_, ?_, ?_, ?_, ?_⟩
  · simp [RegState.setArray, hb]
  · simp [RegState.setMemory, hb]
  · simp [RegState.setConst, hb]
  · simp [RegState.set, hb]
  · intro r sc sz hreg hcont
    simp [RegState.set, RegState.get, hb, hreg, hcont]
    exact (contains_iff_mem REGISTERS r).mp hcont
  · intro a b c d e hinfo
    simp [RegState.set, RegState.get, hb, hinfo]
  · intro a b c hinfo
    simp [RegState.set, RegState.get, hb, hinfo]
  · intro cv sc sz hinfo
    simp [RegState.set, RegState.get, hb, hinfo]
  · intro s2 k2 v2 h2
    simp [RegState.setConst, h2]
  · intro s2 k2 r s2' h2 hnext
    simp [RegState.set, h2, hnext]

/-- C5 amended witness: with `x` bound to register r1, the array, memory, and
const binders all reject `x` while `set` silently returns r1; and on the
state where the ever-const `x` has gone out of scope, `setConst` rebinds it
without error. -/
theorem c5_duplicate_binding_witness :
    afterSetX.has (some "x") = true
    ∧ afterSetX.setArray "x" 2 = .error ("Variable " ++ "x" ++ " already exists")
    ∧ afterSetX.setConst "x" 7 = .error ("Variable " ++ "x" ++ " already exists")
    ∧ mapGet afterSetX.vars "x" = some (.register "r1" 0 1)
    ∧ REGISTERS.contains "r1" = true
    ∧ afterSetX.set "x" none = .ok ("r1", afterSetX)
    ∧ constScopeAfterExit.has (some "x") = false
    ∧ constScopeAfterExit.setConst "x" 2
        = .ok { constScopeAfterExit with
            constNames := "x" :: constScopeAfterExit.constNames,
            vars := mapSet constScopeAfterExit.vars "x"
              (.const 2 constScopeAfterExit.currentScope 0) } := by
  obtain ⟨w1, _, w3, _, w5, _, _, _, w9, _⟩ :=
    c5_duplicate_binding afterSetX "x" 2 7 (by decide)
  exact ⟨by decide, w1, w3, by decide, by decide,
    w5 "r1" 0 1 (by decide) (by decide), by decide,
    w9 constScopeAfterExit "x" 2 (by decide)⟩

/-- C6: register acquire/release round-trips through scope exit: from a fresh
state, bind `m` registers outside a scope (so `14 - m` generic registers are
free at scope entry), enter a scope, bind the remaining `14 - m` registers to
scope-local variables, exit the scope, and acquire `14 - m` registers again —
no step raises `Out of registers!`. -/
theorem c6_register_roundTrip : ∀ m ≤ 14, registerRoundTrip m (14 - m) = true := by
  decide

/-- C6 witness: the round trip at full register pressure (14 scope-local
bindings) succeeds. -/
theorem c6_register_roundTrip_witness :
    0 ≤ 14 ∧ registerRoundTrip 0 14 = true :=
  ⟨by decide, c6_register_roundTrip 0 (by decide)⟩

/-- C7: `allocateScalar` (`memoryAllocator.Value`) returns the current bump
pointer and advances it by exactly 1; it fails with `Out of memory!` exactly
when the advanced bump pointer would reach the stack region
(`STACK_START = 224`), leaving no state change behind, and every successfully
returned address lies in `[0, STACK_START)`. -/
theorem c7_allocateScalar_spec (scope : Nat) (s : RegState) :
    (s.nextMemoryAddress + 1 < SP_START →
      memAllocValue scope s
        = .ok ({ value := s.nextMemoryAddress, size := 1, scope := scope },
               { s with nextMemoryAddress := s.nextMemoryAddress + 1 })
        ∧ s.nextMemoryAddress < SP_START)
    ∧ (SP_START ≤ s.nextMemoryAddress + 1 →
      memAllocValue scope s
        = .error ("Out of memory! Would exceed available space (max address: "
            ++ toString MAX_MEMORY_ADDRESS ++ ")"))
    ∧ ((memAllocValue scope s).isOk = true ↔ s.nextMemoryAddress + 1 < SP_START) := by
  by_cases hlt : s.nextMemoryAddress + 1 < SP_START
  · have ht : isMemoryAddress ((s.nextMemoryAddress + 1 : Nat) : Int) = true := by
      simp only [isMemoryAddress, Bool.and_eq_true, decide_eq_true_eq]
      constructor
      · positivity
      · simp only [SP_START] at hlt ⊢
        exact_mod_cast hlt
    have hok : memAllocValue scope s
        = .ok ({ value := s.nextMemoryAddress, size := 1, scope := scope },
               { s with nextMemoryAddress := s.nextMemoryAddress + 1 }) := by
      unfold memAllocValue allocateMemoryAddress
      dsimp only
      rw [ht]
      rfl
    refine ⟨fun _ => ⟨hok, by omega⟩, fun hge => absurd hlt (by omega), ?_⟩
    rw [hok]
    simp [Except.isOk, Except.toBool, hlt]
  · have ht : isMemoryAddress ((s.nextMemoryAddress + 1 : Nat) : Int) = false := by
      simp only [isMemoryAddress, Bool.and_eq_false_iff]
      right
      simp only [decide_eq_false_iff_not, not_lt, SP_START] at hlt ⊢
      exact_mod_cast hlt
    have herr : memAllocValue scope s
        = .error ("Out of memory! Would exceed available space (max address: "
            ++ toString MAX_MEMORY_ADDRESS ++ ")") := by
      unfold memAllocValue allocateMemoryAddress
      dsimp only
      rw [ht]
      rfl
    refine ⟨fun hc => absurd hc hlt, fun _ => herr, ?_⟩
    rw [herr]
    simp [Except.isOk, Except.toBool, hlt]

/-- C7 witness: on the fresh state the scalar allocator returns address 0 and
advances the pointer to 1; with the pointer at 223 it reports out-of-memory
(the advance would reach the stack region at 224). -/
theorem c7_allocateScalar_spec_witness :
    (initRegState.nextMemoryAddress + 1 < SP_START
      ∧ memAllocValue 0 initRegState
          = .ok ({ value := 0, size := 1, scope := 0 },
                 { initRegState with nextMemoryAddress := 1 })
      ∧ initRegState.nextMemoryAddress < SP_START)
    ∧ (SP_START ≤ 223 + 1
      ∧ memAllocValue 0 { initRegState with nextMemoryAddress := 223 }
          = .error ("Out of memory! Would exceed available space (max address: "
              ++ toString MAX_MEMORY_ADDRESS ++ ")")) := by
  constructor
  · have h := (c7_allocateScalar_spec 0 initRegState).1 (by decide)
    exact ⟨by decide, h.1, h.2⟩
  · have h := (c7_allocateScalar_spec 0 { initRegState with nextMemoryAddress := 223 }).2.1
      (by decide)
    exact ⟨by decide, h⟩

/-- C8 counterexample: on the initial state — whose scope stack holds exactly
the base (program-level) scope — `exitScope` does not fail with a
no-active-scope error; it succeeds, popping the base scope and leaving the
stack empty. -/
theorem c8_counterexample_exit_base :
    initRegState.scopeStack = [0]
    ∧ initRegState.exitScope = .ok exitBasePost
    ∧ (initRegState.exitScope).isOk = true
    ∧ exitBasePost.scopeStack = []
    ∧ exitBasePost.currentScope = 0 := by
  exact ⟨by decide, by decide, by decide, by decide, by decide⟩

/-- C8 amended: `exitScope` fails with the no-active-scope error only when the
scope stack is already empty — which can happen only after the base scope has
itself been popped; whenever the stack is nonempty (the base scope included)
it pops the top id, removes exactly the bindings tagged with that id, frees
exactly the registers of register bindings tagged with that id, and falls
back to the parent id (or 0). -/
theorem c8_exitScope_spec (s : RegState) :
    (s.scopeStack = [] → s.exitScope = .error "Cannot exit scope: no scope to exit")
    ∧ (∀ exitingScope rest s', (s.vars.map Prod.fst).Nodup →
        s.scopeStack = exitingScope :: rest →
        s.exitScope = .ok s' →
        s'.scopeStack = rest
        ∧ s'.currentScope = rest.headD 0
        ∧ (∀ name info, mapGet s'.vars name = some info
            ↔ (mapGet s.vars name = some info ∧ ¬ info.scope = exitingScope))
        ∧ (∀ r, mapGet s'.registers r
            = if (∃ p ∈ s.vars, p.2.scope = exitingScope ∧ p.2.registerValue = some r)
                ∧ r ∈ GENERIC_REGISTERS
              then some false else mapGet s.registers r)) := by
  constructor
  · intro hs
    unfold RegState.exitScope
    rw [hs]
  · intro ex rest s' hnd hstack h
    unfold RegState.exitScope at h
    rw [hstack] at h
    simp only [Except.ok.injEq] at h
    subst h
    refine ⟨rfl, rfl, ?_, ?_⟩
    · intro name info
      exact mapGet_filter_notScope s.vars hnd ex name info
    · intro r
      rw [show (RegState.free s
            ((s.vars.filter (fun p => p.2.scope == ex)).filterMap
              (fun p => p.2.registerValue))).registers
          = (s.free ((s.vars.filter (fun p => p.2.scope == ex)).filterMap
              (fun p => p.2.registerValue))).registers from rfl]
      rw [mapGet_free_registers]
      have hiff :
          (r ∈ (s.vars.filter (fun p => p.2.scope == ex)).filterMap
              (fun p => p.2.registerValue)
            ∧ r ∈ GENERIC_REGISTERS)
          ↔ ((∃ p ∈ s.vars, p.2.scope = ex ∧ p.2.registerValue = some r)
            ∧ r ∈ GENERIC_REGISTERS) := by
        constructor
        · rintro ⟨hmem, hg⟩
          obtain ⟨p, hp, hpv⟩ := List.mem_filterMap.mp hmem
          obtain ⟨hpm, hps⟩ := List.mem_filter.mp hp
          exact ⟨⟨p, hpm, by simpa using hps, hpv⟩, hg⟩
        · rintro ⟨⟨p, hpm, hps, hpv⟩, hg⟩
          refine ⟨List.mem_filterMap.mpr ⟨p, List.mem_filter.mpr ⟨hpm, by simpa using hps⟩,
            hpv⟩, hg⟩
      rw [if_congr hiff rfl rfl]

/-- C8 amended witness: exiting the scope of `scopedRegPre` (a register
variable `x` bound to r1 inside scope 1) pops scope 1, drops the binding, and
frees r1. -/
theorem c8_exitScope_spec_witness :
    (scopedRegPre.vars.map Prod.fst).Nodup
    ∧ scopedRegPre.scopeStack = 1 :: [0]
    ∧ scopedRegPre.exitScope = .ok scopedRegPost
    ∧ scopedRegPost.scopeStack = [0]
    ∧ scopedRegPost.currentScope = 0
    ∧ mapGet scopedRegPost.vars "x" = none
    ∧ mapGet scopedRegPost.registers "r1" = some false := by
  have h := (c8_exitScope_spec scopedRegPre).2 1 [0] scopedRegPost (by decide) (by decide)
    (by decide)
  refine ⟨by decide, by decide, by decide, h.1, h.2.1, by decide, ?_⟩
  have hr := h.2.2.2 "r1"
  rw [hr, if_pos (by decide)]

/-- C9: the literal `0` in value position with no target variable name
returns the hard-wired zero register `r0` and emits nothing (the context is
unchanged); the literal `0` assigned to a named variable instead acquires a
fresh free generic register and emits `LDI reg 0` into it. -/
theorem c9_literal_zero (ctx : Ctx) :
    compileLiteralValue ctx (.num 0) none = .ok (ZERO_REGISTER, ctx)
    ∧ (∀ name r s', varNameTruthy (some name) = true →
        ctx.regs.next = .ok (r, s') →
        compileLiteralValue ctx (.num 0) (some name)
          = .ok (r, { ctx with
              regs := s',
              assembly := ctx.assembly ++ [.instruction "LDI" [r, "0"]] })
        ∧ r ∈ GENERIC_REGISTERS
        ∧ (mapGet ctx.regs.registers r).getD false = false) := by
  constructor
  · rfl
  · intro name r s' htr hnext
    obtain ⟨hmem, hfree, _⟩ := next_ok_spec ctx.regs r s' hnext
    refine ⟨?_, hmem, hfree⟩
    unfold compileLiteralValue
    rw [show ((LitValue.num 0 == LitValue.num 0) && !(varNameTruthy (some name))) = false by
      rw [htr]; rfl]
    simp only [Bool.false_eq_true, if_false, hnext]
    rfl

/-- C9 witness: on the fresh context the bare literal 0 yields `r0` with no
emission, while `a = 0` acquires r1 and emits `LDI r1 0`. -/
theorem c9_literal_zero_witness :
    compileLiteralValue initCtx (.num 0) none = .ok (ZERO_REGISTER, initCtx)
    ∧ varNameTruthy (some "a") = true
    ∧ initCtx.regs.next
        = .ok ("r1", { initRegState with
            registers := mapSet initRegState.registers "r1" true })
    ∧ compileLiteralValue initCtx (.num 0) (some "a")
        = .ok ("r1", { initCtx with
            regs := { initRegState with
              registers := mapSet initRegState.registers "r1" true },
            assembly := initCtx.assembly ++ [.instruction "LDI" ["r1", "0"]] }) := by
  have h := c9_literal_zero initCtx
  refine ⟨h.1, by decide, by decide, ?_⟩
  exact (h.2 "a" "r1" { initRegState with
    registers := mapSet initRegState.registers "r1" true } (by decide) (by decide)).1

set_option maxRecDepth 8192 in
/-- C10: assigning a string literal to a name compiles the string as an array
of its characters: strings longer than 10 characters are rejected before any
storage is allocated; otherwise the name is bound to an array of size equal
to the string length, whose base offset obeys `max(0, length - 9)`, and each
character is emitted as an `LDI` of the (quoted) character followed by a
`STORE` through the base register at the signed offset `i - offset`, every
such offset lying within `[-7, 8]`. -/
theorem c10_string_literal_assignment (ctx ctx' : Ctx) (value name : String) :
    (10 < value.length →
      compileStringLiteralAssignment ctx value name
        = .error ("String '" ++ value ++ "' exceeds maximum length of 10 characters"))
    ∧ (value.length ≤ 10 →
      compileStringLiteralAssignment ctx value name = .ok ctx' →
      ∃ info s0 baseReg valueReg,
        ctx.regs.setString name value.length = .ok (info, s0)
        ∧ info.size = value.length
        ∧ (info.offset : Int) = max 0 ((value.length : Int) - 9)
        ∧ mapGet ctx'.regs.vars name
            = some (.array info.value info.size info.scope info.base info.offset)
        ∧ ctx'.assembly = ctx.assembly
            ++ [.instruction "LDI" [baseReg, toString info.base]]
            ++ (List.range value.length).flatMap (fun i =>
                [.instruction "LDI"
                   [valueReg,
                    "\"" ++ String.singleton (value.data.getD i (Char.ofNat 0)) ++ "\""],
                 .instruction "STORE"
                   [baseReg, valueReg, toString ((i : Int) - (info.offset : Int))]])
        ∧ (∀ i : Nat, i < value.length →
            -7 ≤ (i : Int) - (info.offset : Int)
              ∧ (i : Int) - (info.offset : Int) ≤ 8)) := by
  constructor
  · intro hgt
    unfold compileStringLiteralAssignment
    rw [if_pos hgt]
  · intro hlen h
    unfold compileStringLiteralAssignment at h
    rw [if_neg (by omega)] at h
    cases hset : ctx.regs.setString name value.length with
    | error e => rw [hset] at h; cases h
    | ok p =>
        obtain ⟨info, s0⟩ := p
        rw [hset] at h
        dsimp only at h
        cases hb : s0.next with
        | error e => rw [hb] at h; cases h
        | ok pb =>
            obtain ⟨baseReg, s1b⟩ := pb
            rw [hb] at h
            simp only [Ctx.emitInstruction] at h
            cases hv : s1b.next with
            | error e => rw [hv] at h; cases h
            | ok pv =>
                obtain ⟨valueReg, s3⟩ := pv
                rw [hv] at h
                dsimp only at h
                simp only [Except.ok.injEq] at h
                -- facts about the allocation
                have hsetArr := setArray_ok ctx.regs name value.length info s0 hset
                obtain ⟨s00, halloc, hs0⟩ := hsetArr.2
                obtain ⟨_, hsize, _, hoff, _, _⟩ :=
                  memAllocArray_ok value.length ctx.regs.currentScope ctx.regs info s00
                    halloc
                have h8 : (MAX_ARRAY_OFFSET : Int) = 8 := by norm_num [MAX_ARRAY_OFFSET]
                have hoff9 : (info.offset : Int) = max 0 ((value.length : Int) - 9) := by
                  rw [hoff, h8]
                  congr 1
                  ring
                obtain ⟨_, _, hs1b⟩ := next_ok_spec s0 baseReg s1b hb
                obtain ⟨_, _, hs3⟩ := next_ok_spec s1b valueReg s3 hv
                refine ⟨info, s0, baseReg, valueReg, rfl, hsize, hoff9, ?_, ?_, ?_⟩
                · rw [← h]
                  show mapGet
                    (((List.range info.size).foldl
                      (storeCharStep baseReg valueReg value info.offset) _).regs).vars name
                    = _
                  rw [foldl_regs_const
                    (storeCharStep baseReg valueReg value info.offset) (fun c i => rfl)]
                  show mapGet s3.vars name = _
                  rw [hs3, hs1b]
                  show mapGet s0.vars name = _
                  rw [hs0]
                  show mapGet (mapSet s00.vars name _) name = _
                  rw [mapGet_mapSet]
                  simp
                · rw [← h]
                  show ((List.range info.size).foldl
                      (storeCharStep baseReg valueReg value info.offset)
                      ({ ctx with
                         regs := s3,
                         assembly := ctx.assembly
                           ++ [AsmEntry.instruction "LDI"
                                 [baseReg, toString info.base]] })).assembly
                    = _
                  rw [foldl_assembly_flatMap
                    (storeCharStep baseReg valueReg value info.offset)
                    (fun i =>
                      [AsmEntry.instruction "LDI"
                         [valueReg,
                          "\"" ++ String.singleton (value.data.getD i (Char.ofNat 0))
                            ++ "\""],
                       AsmEntry.instruction "STORE"
                         [baseReg, valueReg,
                          toString ((i : Int) - (info.offset : Int))]])
                    (fun c i => by simp [storeCharStep, Ctx.emitInstruction])]
                  rw [hsize]
                · intro i hi
                  have h1 : (0 : Int) ≤ (info.offset : Int) := by positivity
                  have h2 : (value.length : Int) - 9 ≤ (info.offset : Int) := by
                    rw [hoff9]; exact le_max_right _ _
                  have h3 : (info.offset : Int) ≤ 1 := by
                    rw [hoff9]
                    apply max_le
                    · norm_num
                    · omega
                  constructor <;> omega

/-- C10 witness: the 11-character string is rejected with the length error,
while `s = "hi"` succeeds, binding `s` to a 2-element array with both
characters stored through the base register at in-range offsets. -/
theorem c10_string_literal_assignment_witness :
    (10 < "hellohello!".length
      ∧ compileStringLiteralAssignment initCtx "hellohello!" "s"
          = .error ("String '" ++ "hellohello!"
              ++ "' exceeds maximum length of 10 characters"))
    ∧ ("hi".length ≤ 10
      ∧ compileStringLiteralAssignment initCtx "hi" "s" = .ok stringAssignPost
      ∧ ∃ info s0 baseReg valueReg,
          initCtx.regs.setString "s" "hi".length = .ok (info, s0)
          ∧ info.size = "hi".length
          ∧ (info.offset : Int) = max 0 (("hi".length : Int) - 9)
          ∧ mapGet stringAssignPost.regs.vars "s"
              = some (.array info.value info.size info.scope info.base info.offset)
          ∧ stringAssignPost.assembly = initCtx.assembly
              ++ [.instruction "LDI" [baseReg, toString info.base]]
              ++ (List.range "hi".length).flatMap (fun i =>
                  [.instruction "LDI"
                     [valueReg,
                      "\"" ++ String.singleton ("hi".data.getD i (Char.ofNat 0)) ++ "\""],
                   .instruction "STORE"
                     [baseReg, valueReg, toString ((i : Int) - (info.offset : Int))]])
          ∧ (∀ i : Nat, i < "hi".length →
              -7 ≤ (i : Int) - (info.offset : Int)
                ∧ (i : Int) - (info.offset : Int) ≤ 8)) := by
  constructor
  · exact ⟨by decide, (c10_string_literal_assignment initCtx initCtx "hellohello!" "s").1
      (by decide)⟩
  · have hok : compileStringLiteralAssignment initCtx "hi" "s" = .ok stringAssignPost := by
      decide
    exact ⟨by decide, hok,
      (c10_string_literal_assignment initCtx stringAssignPost "hi" "s").2 (by decide) hok⟩

end JsToSchematic
